import Mathlib

/-!
A verification development for the real-time room/game coordination
subsystem of the MERN repository (server/src/server.ts).

The tic-tac-toe part is embedded as pure functions over an explicit room
state: the socket handler for the move action becomes `moveHandler`, a
function from the addressed room and the payload to the updated room plus
the ordered list of events it emits (the in-memory room store lookup
GetGameDetail is modelled by passing the room state directly).  The typing
race part is embedded as `timerHandler` (the timer action), `lobbyStep` and
`raceStep` (one setInterval callback each of the lobby and race countdowns)
with fuel-bounded runners, and `startGameClock`; the ambient set of live
setInterval handles is modelled as an explicit list so that statements
about concurrently active timers can be made.
-/

/-- One player slot of a tic-tac-toe room: bound user id (none models a
missing/unset id, which is falsy in the source), display name and the
ordered list of recorded move indices. -/
structure PlayerSlot where
  userId : Option String
  username : String
  moves : List Nat
deriving DecidableEq

/-- A tic-tac-toe room: the two player slots user1 and user2. -/
structure Room where
  user1 : PlayerSlot
  user2 : PlayerSlot
deriving DecidableEq

/-- The payload of the move action: room id, acting user id and the board
index of the move. -/
structure MovePayload where
  roomId : String
  userId : String
  move : Nat
deriving DecidableEq

/-- The events the tic-tac-toe handlers emit to the room. -/
inductive TicEvent where
  | userLeave : TicEvent
  | moveEv : Nat → String → TicEvent
  | winEv : String → String → Option (List Nat) → TicEvent
  | drawEv : String → TicEvent
deriving DecidableEq

def TicEvent.isWinEv : TicEvent → Bool
  | TicEvent.winEv _ _ _ => true
  | _ => false

def TicEvent.isDrawEv : TicEvent → Bool
  | TicEvent.drawEv _ => true
  | _ => false

/-- An end-of-game notice: a win event or a draw event. -/
def TicEvent.isEndEv (e : TicEvent) : Bool :=
  e.isWinEv || e.isDrawEv

def TicEvent.isMoveEv : TicEvent → Bool
  | TicEvent.moveEv _ _ => true
  | _ => false

/-- The 8 fixed winning triples of the 3x3 board: 3 rows, 3 columns and
the 2 diagonals. -/
def winningTriples : List (List Nat) :=
  [[0, 1, 2], [3, 4, 5], [6, 7, 8],
   [0, 3, 6], [1, 4, 7], [2, 5, 8],
   [0, 4, 8], [2, 4, 6]]

/-- The result CheckWin yields: the win flag and the winning pattern, when
one exists. -/
structure WinResult where
  isWin : Bool
  pattern : Option (List Nat)
deriving DecidableEq

/-- Modelled from the spec: the implementation of CheckWin is not under
src (server.ts only calls it).  Per the spec, the evaluator enumerates the
8 fixed winning triples and the invoking player wins iff the set of that
recorded move indices of that player is a superset of one of them; the
slot evaluated follows the routing convention of the handler (slot one when its
bound user id matches, slot two otherwise). -/
def CheckWin (room : Room) (userId : String) : WinResult :=
  let moves := if room.user1.userId = some userId then room.user1.moves
               else room.user2.moves
  let pat := winningTriples.find? (fun t => t.all (fun c => moves.contains c))
  ⟨pat.isSome, pat⟩

/-- The socket handler of the move action (server.ts lines 126-172): when
a slot has no bound user id a userLeave notice is emitted first (processing
continues); the move is appended to slot one when its user id matches the
payload and to slot two otherwise; the move notice is broadcast; then, once
the mover has at least 3 moves, the win check runs, and failing that the
draw check on a total of at least 9 moves. -/
def moveHandler (room : Room) (p : MovePayload) : Room × List TicEvent :=
  let evs0 : List TicEvent :=
    if room.user1.userId.isNone || room.user2.userId.isNone then
      [TicEvent.userLeave]
    else []
  let step :=
    if room.user1.userId = some p.userId then
      let s1 := { room.user1 with moves := room.user1.moves ++ [p.move] }
      ({ room with user1 := s1 }, s1.moves.length, room.user1.username)
    else
      let s2 := { room.user2 with moves := room.user2.moves ++ [p.move] }
      ({ room with user2 := s2 }, s2.moves.length, room.user2.username)
  let room1 := step.1
  let moveCount := step.2.1
  let current_username := step.2.2
  let evs1 := evs0 ++ [TicEvent.moveEv p.move p.userId]
  if 3 ≤ moveCount then
    let w := CheckWin room1 p.userId
    if w.isWin then
      (room1, evs1 ++ [TicEvent.winEv p.userId current_username w.pattern])
    else if 9 ≤ room1.user1.moves.length + room1.user2.moves.length then
      (room1, evs1 ++ [TicEvent.drawEv p.roomId])
    else (room1, evs1)
  else (room1, evs1)

/-- Folding the move handler over a list of payloads, concatenating the
emitted events in order. -/
def runGame (room : Room) (ps : List MovePayload) : Room × List TicEvent :=
  ps.foldl (fun acc p =>
    let out := moveHandler acc.1 p
    (out.1, acc.2 ++ out.2)) (room, [])

/-- The room state after a list of move actions. -/
def roomAfter (room : Room) (ps : List MovePayload) : Room :=
  (runGame room ps).1

/-- A fresh room with both slots bound and no recorded moves. -/
def room0 (a b ua ub : String) : Room :=
  ⟨⟨some a, ua, []⟩, ⟨some b, ub, []⟩⟩

/-- The moves of a payload list routed to slot one: those whose user id
matches the bound id of slot one. -/
def moves1 (a : String) (ps : List MovePayload) : List Nat :=
  (ps.filter (fun p => p.userId == a)).map (fun p => p.move)

/-- The moves of a payload list routed to slot two: those whose user id
does not match the bound id of slot one. -/
def moves2 (a : String) (ps : List MovePayload) : List Nat :=
  (ps.filter (fun p => !(p.userId == a))).map (fun p => p.move)

/-- One entry of the players collection of a typing race game document. -/
structure RacePlayer where
  id : String
  isPartyLeader : Bool
deriving DecidableEq

/-- A typing race game document as persisted by the external collaborator:
identifier, players, start time (none before the race starts), the open
flag and the over flag. -/
structure RaceGame where
  id : String
  players : List RacePlayer
  startTime : Option Int
  isOpen : Bool
  isOver : Bool
deriving DecidableEq

/-- Modelled from the spec: calculateTime lives in utils/game-clock, which
is not under src.  It formats the remaining seconds of the race countdown
for display; only the per-tick remaining-seconds value matters here, so the
formatted string is modelled by that underlying value. -/
def calculateTime (seconds : Int) : Int :=
  seconds

/-- The events the typing race handlers emit to the game room: a timer
message carrying the countdown value, and a game snapshot broadcast. -/
inductive RaceEvent where
  | timerEv : Int → String → RaceEvent
  | updateGame : Option RaceGame → RaceEvent
deriving DecidableEq

def RaceEvent.isTimerEv : RaceEvent → Bool
  | RaceEvent.timerEv _ _ => true
  | _ => false

/-- The state of one live lobby countdown interval (one setInterval handle
of the timer handler): the remaining count, the captured game snapshot,
the game id, the games persisted so far by this timer, whether
startGameClock has been invoked, and whether the interval was cleared. -/
structure LobbyState where
  countDown : Int
  game : Option RaceGame
  gameId : String
  saved : List RaceGame
  raceStarted : Bool
  cleared : Bool
deriving DecidableEq

/-- The lobby countdown state the timer handler installs: count 5, the
loaded game snapshot captured. -/
def lobbyStart (gameId : String) (game : Option RaceGame) : LobbyState :=
  ⟨5, game, gameId, [], false, false⟩

/-- The socket handler of the timer action (server.ts lines 175-212): load
the game, look the player up in it; when the player is absent emit a
zero-count timer message and the (possibly null) snapshot; when the player
is a party leader install the lobby countdown interval.  A found non-leader
player triggers neither branch: nothing is emitted and no interval is
installed. -/
def timerHandler (db : List RaceGame) (playerId gameId : String) :
    List RaceEvent × Option LobbyState :=
  let game := db.find? (fun g => g.id == gameId)
  let player := game.bind (fun g => g.players.find? (fun p => p.id == playerId))
  let evs : List RaceEvent :=
    if player.isNone then
      [RaceEvent.timerEv 0 "There is no Player, Try Again",
       RaceEvent.updateGame game]
    else []
  if (player.map (fun p => p.isPartyLeader)).getD false then
    (evs, some (lobbyStart gameId game))
  else
    (evs, none)

/-- One callback of the lobby countdown interval (server.ts lines
190-207): a cleared interval fires no more; while the count is nonnegative
a tick broadcasts the count and the captured snapshot and decrements;
otherwise, when the captured game is non-null, the game is closed
(isOpen set to false), persisted, the final snapshot broadcast, the race
countdown started and the interval cleared. -/
def lobbyStep (st : LobbyState) : LobbyState × List RaceEvent :=
  if st.cleared then (st, [])
  else if 0 ≤ st.countDown then
    ({ st with countDown := st.countDown - 1 },
     [RaceEvent.timerEv st.countDown "Starting Game in...",
      RaceEvent.updateGame st.game])
  else
    match st.game with
    | some g =>
        let g1 := { g with isOpen := false }
        ({ st with game := some g1, saved := st.saved ++ [g1],
                   raceStarted := true, cleared := true },
         [RaceEvent.updateGame (some g1)])
    | none => (st, [])

/-- Run a number of lobby interval callbacks, concatenating the emitted
events. -/
def runLobby : Nat → LobbyState → LobbyState × List RaceEvent
  | 0, st => (st, [])
  | n + 1, st =>
      let out := lobbyStep st
      let rest := runLobby n out.1
      (rest.1, out.2 ++ rest.2)

/-- The state of one live race countdown interval (one setInterval handle
of startGameClock): the game id, the remaining time, the captured game,
the games persisted so far by this timer, and whether the interval was
cleared. -/
structure RaceClock where
  gameId : String
  time : Int
  game : RaceGame
  saved : List RaceGame
  cleared : Bool
deriving DecidableEq

/-- The race countdown interval startGameClock installs: time 120, the
game with its start time set already persisted once. -/
def raceClockStart (gameId : String) (g : RaceGame) : RaceClock :=
  ⟨gameId, 120, g, [g], false⟩

/-- startGameClock (server.ts lines 230-253): load the game by id and do
nothing when it is absent; otherwise set its start time, persist it, and
install a fresh race countdown interval from 120.  The live intervals are
modelled as an explicit list; the source consults no such registry, so the
new interval is appended unconditionally. -/
def startGameClock (db : List RaceGame) (timers : List RaceClock)
    (gameId : String) (now : Int) : List RaceClock :=
  match db.find? (fun g => g.id == gameId) with
  | none => timers
  | some g =>
      timers ++ [raceClockStart gameId { g with startTime := some now }]

/-- One callback of the race countdown interval (server.ts lines 239-253):
a cleared interval fires no more; while the time is nonnegative a tick
broadcasts the formatted remaining time and decrements; otherwise the game
is marked over, persisted, the final snapshot broadcast and the interval
cleared. -/
def raceStep (c : RaceClock) : RaceClock × List RaceEvent :=
  if c.cleared then (c, [])
  else if 0 ≤ c.time then
    ({ c with time := c.time - 1 },
     [RaceEvent.timerEv (calculateTime c.time) "Time Remaining"])
  else
    let g1 := { c.game with isOver := true }
    ({ c with game := g1, saved := c.saved ++ [g1], cleared := true },
     [RaceEvent.updateGame (some g1)])

/-- Run a number of race interval callbacks, concatenating the emitted
events. -/
def runRace : Nat → RaceClock → RaceClock × List RaceEvent
  | 0, c => (c, [])
  | n + 1, c =>
      let out := raceStep c
      let rest := runRace n out.1
      (rest.1, out.2 ++ rest.2)

/-- The tick events a countdown from t emits: counts t down to 0 with the
given message. -/
def countTicks (t : Nat) (msg : String) : List RaceEvent :=
  ((List.range (t + 1)).reverse).map
    (fun k : Nat => RaceEvent.timerEv (k : Int) msg)


/-- C1: CheckWin returns won=true iff the recorded
move-index set is a superset of one of the 8 fixed winning triples of the
3x3 board, and won=false for every other set. -/
theorem C1_CheckWin_iff_winning_triple (room : Room) (userId : String) :
    (CheckWin room userId).isWin = true ↔
      ∃ t ∈ winningTriples, ∀ c ∈ t,
        c ∈ (if room.user1.userId = some userId then room.user1.moves
             else room.user2.moves) := by
  unfold CheckWin
  simp [List.find?_isSome, List.all_eq_true]

/-- C3: within the processing of one move action, the room-wide move
notice is emitted before any win or draw notice: the emitted event list
splits around the move notice and every event before it is not an
end-of-game notice. -/
theorem C3_move_notice_before_end_notice (room : Room) (p : MovePayload) :
    ∃ pre post, (moveHandler room p).2
        = pre ++ TicEvent.moveEv p.move p.userId :: post
      ∧ ∀ e ∈ pre, e.isEndEv = false := by
  unfold moveHandler
  dsimp only
  split_ifs <;>
    first
      | exact ⟨[TicEvent.userLeave], _, rfl, by decide⟩
      | exact ⟨[], _, rfl, by decide⟩

/-- C6 counterexample: after a win has been signaled for room R (player A
completed the triple 0,1,2 and the win event was emitted), a further move
by player B is still accepted: it is appended to slot two and the move
notice is broadcast, instead of failing with GameAlreadyOver and leaving
the move sequences unchanged. -/
theorem C6_counterexample :
    ((runGame (room0 "A" "B" "ua" "ub")
        [⟨"r", "A", 0⟩, ⟨"r", "A", 1⟩, ⟨"r", "A", 2⟩]).2.any TicEvent.isWinEv)
      = true
    ∧ (moveHandler
        (runGame (room0 "A" "B" "ua" "ub")
          [⟨"r", "A", 0⟩, ⟨"r", "A", 1⟩, ⟨"r", "A", 2⟩]).1
        ⟨"r", "B", 5⟩).1.user2.moves = [5]
    ∧ ((moveHandler
        (runGame (room0 "A" "B" "ua" "ub")
          [⟨"r", "A", 0⟩, ⟨"r", "A", 1⟩, ⟨"r", "A", 2⟩]).1
        ⟨"r", "B", 5⟩).2.any TicEvent.isMoveEv) = true := by
  decide

/-- C6 amended: after a room has reached a won or drawn state (won: a
slot holds all of a winning triple; drawn: 9 moves are recorded and
neither slot holds a full triple), a further move action is still accepted
rather than rejected with GameAlreadyOver: the total recorded move count
grows by one and the move notice is emitted. -/
theorem C6_amended_moves_accepted_after_game_over (room : Room)
    (p : MovePayload)
    (_hover : (∃ t ∈ winningTriples,
        (∀ c ∈ t, c ∈ room.user1.moves) ∨ (∀ c ∈ t, c ∈ room.user2.moves))
      ∨ (9 ≤ room.user1.moves.length + room.user2.moves.length
         ∧ ∀ t ∈ winningTriples,
            (∃ c ∈ t, c ∉ room.user1.moves) ∧ (∃ c ∈ t, c ∉ room.user2.moves))) :
    (moveHandler room p).1.user1.moves.length
        + (moveHandler room p).1.user2.moves.length
      = room.user1.moves.length + room.user2.moves.length + 1
    ∧ TicEvent.moveEv p.move p.userId ∈ (moveHandler room p).2 := by
  unfold moveHandler
  dsimp only
  split_ifs <;> exact ⟨by simp; omega, by simp⟩

/-- C6 witness: the amended statement at a concrete drawn room - all 9
cells recorded, split 0,1,5,6,8 against 2,3,4,7, neither slot holding a
triple - where a tenth move is still accepted. -/
theorem C6_amended_witness :
    ((∃ t ∈ winningTriples,
        (∀ c ∈ t, c ∈ (Room.mk ⟨some "A", "ua", [0, 1, 5, 6, 8]⟩
            ⟨some "B", "ub", [2, 3, 4, 7]⟩).user1.moves)
        ∨ (∀ c ∈ t, c ∈ (Room.mk ⟨some "A", "ua", [0, 1, 5, 6, 8]⟩
            ⟨some "B", "ub", [2, 3, 4, 7]⟩).user2.moves))
      ∨ (9 ≤ (Room.mk ⟨some "A", "ua", [0, 1, 5, 6, 8]⟩
            ⟨some "B", "ub", [2, 3, 4, 7]⟩).user1.moves.length
          + (Room.mk ⟨some "A", "ua", [0, 1, 5, 6, 8]⟩
            ⟨some "B", "ub", [2, 3, 4, 7]⟩).user2.moves.length
         ∧ ∀ t ∈ winningTriples,
            (∃ c ∈ t, c ∉ (Room.mk ⟨some "A", "ua", [0, 1, 5, 6, 8]⟩
              ⟨some "B", "ub", [2, 3, 4, 7]⟩).user1.moves)
            ∧ (∃ c ∈ t, c ∉ (Room.mk ⟨some "A", "ua", [0, 1, 5, 6, 8]⟩
              ⟨some "B", "ub", [2, 3, 4, 7]⟩).user2.moves)))
    ∧ ((moveHandler (Room.mk ⟨some "A", "ua", [0, 1, 5, 6, 8]⟩
          ⟨some "B", "ub", [2, 3, 4, 7]⟩) ⟨"r", "A", 4⟩).1.user1.moves.length
        + (moveHandler (Room.mk ⟨some "A", "ua", [0, 1, 5, 6, 8]⟩
            ⟨some "B", "ub", [2, 3, 4, 7]⟩) ⟨"r", "A", 4⟩).1.user2.moves.length
        = (Room.mk ⟨some "A", "ua", [0, 1, 5, 6, 8]⟩
            ⟨some "B", "ub", [2, 3, 4, 7]⟩).user1.moves.length
          + (Room.mk ⟨some "A", "ua", [0, 1, 5, 6, 8]⟩
              ⟨some "B", "ub", [2, 3, 4, 7]⟩).user2.moves.length + 1
      ∧ TicEvent.moveEv 4 "A" ∈ (moveHandler
          (Room.mk ⟨some "A", "ua", [0, 1, 5, 6, 8]⟩
            ⟨some "B", "ub", [2, 3, 4, 7]⟩) ⟨"r", "A", 4⟩).2) :=
  ⟨by decide, C6_amended_moves_accepted_after_game_over _ _ (by decide)⟩

/-- C7 counterexample: carol holds no slot in a room bound to alice and
bob, yet her move action is appended to the slot-two move sequence and
broadcast, instead of failing with PlayerNotInRoom and leaving the move
sequences unmodified. -/
theorem C7_counterexample :
    (room0 "alice" "bob" "ua" "ub").user1.userId ≠ some "carol"
    ∧ (room0 "alice" "bob" "ua" "ub").user2.userId ≠ some "carol"
    ∧ (moveHandler (room0 "alice" "bob" "ua" "ub")
        ⟨"r", "carol", 4⟩).1.user2.moves = [4]
    ∧ ((moveHandler (room0 "alice" "bob" "ua" "ub")
        ⟨"r", "carol", 4⟩).2.any TicEvent.isMoveEv) = true := by
  decide

/-- C7 amended: a move action whose user id does not match the bound id of
slot one — in particular one whose player holds no slot at all — is
appended to the slot-two move sequence and the move notice is broadcast;
the handler never fails with PlayerNotInRoom. -/
theorem C7_amended_unmatched_move_goes_to_slot_two (room : Room)
    (p : MovePayload) (h : ¬room.user1.userId = some p.userId) :
    (moveHandler room p).1.user1 = room.user1
    ∧ (moveHandler room p).1.user2.moves = room.user2.moves ++ [p.move]
    ∧ TicEvent.moveEv p.move p.userId ∈ (moveHandler room p).2 := by
  unfold moveHandler
  dsimp only
  rw [if_neg h]
  split_ifs <;> exact ⟨rfl, rfl, by simp⟩

/-- C7 witness: the amended statement at a concrete room and outsider. -/
theorem C7_amended_witness :
    ¬(room0 "alice" "bob" "ua" "ub").user1.userId = some "carol"
    ∧ ((moveHandler (room0 "alice" "bob" "ua" "ub")
          ⟨"r", "carol", 4⟩).1.user1 = (room0 "alice" "bob" "ua" "ub").user1
      ∧ (moveHandler (room0 "alice" "bob" "ua" "ub")
          ⟨"r", "carol", 4⟩).1.user2.moves
          = (room0 "alice" "bob" "ua" "ub").user2.moves ++ [4]
      ∧ TicEvent.moveEv 4 "carol" ∈ (moveHandler (room0 "alice" "bob" "ua" "ub")
          ⟨"r", "carol", 4⟩).2) :=
  ⟨by decide, C7_amended_unmatched_move_goes_to_slot_two _ _ (by decide)⟩

/-- C10: whenever a slot of the addressed room has no bound user id, the
move handler broadcasts a userLeave notice first but does not stop: the
move is still appended to a slot and the move notice is still broadcast. -/
theorem C10_userLeave_then_processing_continues (room : Room)
    (p : MovePayload)
    (h : (room.user1.userId.isNone || room.user2.userId.isNone) = true) :
    (moveHandler room p).2.head? = some TicEvent.userLeave
    ∧ TicEvent.moveEv p.move p.userId ∈ (moveHandler room p).2
    ∧ (moveHandler room p).1.user1.moves.length
        + (moveHandler room p).1.user2.moves.length
      = room.user1.moves.length + room.user2.moves.length + 1 := by
  unfold moveHandler
  dsimp only
  rw [if_pos h]
  split_ifs <;> exact ⟨rfl, by simp, by simp; omega⟩

/-- C10 witness: the statement at a concrete room with an unbound slot. -/
theorem C10_witness :
    ((Room.mk ⟨some "A", "ua", []⟩ ⟨none, "", []⟩).user1.userId.isNone
      || (Room.mk ⟨some "A", "ua", []⟩ ⟨none, "", []⟩).user2.userId.isNone)
      = true
    ∧ ((moveHandler (Room.mk ⟨some "A", "ua", []⟩ ⟨none, "", []⟩)
          ⟨"r", "A", 0⟩).2.head? = some TicEvent.userLeave
      ∧ TicEvent.moveEv 0 "A" ∈ (moveHandler
          (Room.mk ⟨some "A", "ua", []⟩ ⟨none, "", []⟩) ⟨"r", "A", 0⟩).2
      ∧ (moveHandler (Room.mk ⟨some "A", "ua", []⟩ ⟨none, "", []⟩)
            ⟨"r", "A", 0⟩).1.user1.moves.length
          + (moveHandler (Room.mk ⟨some "A", "ua", []⟩ ⟨none, "", []⟩)
              ⟨"r", "A", 0⟩).1.user2.moves.length
        = (Room.mk ⟨some "A", "ua", []⟩ ⟨none, "", []⟩).user1.moves.length
          + (Room.mk ⟨some "A", "ua", []⟩ ⟨none, "", []⟩).user2.moves.length
            + 1) :=
  ⟨by decide, C10_userLeave_then_processing_continues _ _ (by decide)⟩

/-- C8 counterexample: a startLobbyCountdown (timer) request by a found
participant that is not the party leader is silently ignored: the handler
emits no event at all — in particular no NotAuthorized rejection — and
installs no countdown interval. -/
theorem C8_counterexample :
    ((RaceGame.mk "g1" [⟨"p1", false⟩] none true false).players.find?
        (fun p => p.id == "p1")) = some ⟨"p1", false⟩
    ∧ timerHandler [RaceGame.mk "g1" [⟨"p1", false⟩] none true false]
        "p1" "g1" = ([], none) := by
  decide

/-- C8 amended: a startLobbyCountdown request from a found participant who
is not flagged isPartyLeader schedules no countdown and emits no tick
events, but it is silently ignored rather than rejected with
NotAuthorized: the handler emits nothing at all. -/
theorem C8_amended_nonleader_silently_ignored (db : List RaceGame)
    (playerId gameId : String) (g : RaceGame) (pl : RacePlayer)
    (hg : db.find? (fun x => x.id == gameId) = some g)
    (hp : g.players.find? (fun q => q.id == playerId) = some pl)
    (hl : pl.isPartyLeader = false) :
    timerHandler db playerId gameId = ([], none) := by
  unfold timerHandler
  rw [hg]
  simp [hp, hl]

/-- C8 witness: the amended statement at a concrete game and non-leader. -/
theorem C8_amended_witness :
    ([RaceGame.mk "g1" [⟨"p1", false⟩] none true false].find?
        (fun x => x.id == "g1")
      = some (RaceGame.mk "g1" [⟨"p1", false⟩] none true false))
    ∧ ((RaceGame.mk "g1" [⟨"p1", false⟩] none true false).players.find?
        (fun q => q.id == "p1") = some ⟨"p1", false⟩)
    ∧ (RacePlayer.mk "p1" false).isPartyLeader = false
    ∧ timerHandler [RaceGame.mk "g1" [⟨"p1", false⟩] none true false]
        "p1" "g1" = ([], none) :=
  ⟨by decide, by decide, by decide,
    C8_amended_nonleader_silently_ignored
      [RaceGame.mk "g1" [⟨"p1", false⟩] none true false] "p1" "g1"
      (RaceGame.mk "g1" [⟨"p1", false⟩] none true false)
      (RacePlayer.mk "p1" false)
      (by decide) (by decide) (by decide)⟩

/-- C9 counterexample: two start requests of the race countdown for the
same reachable game identifier leave two concurrently active (uncleared)
race timers for that identifier rather than rejecting or ignoring the
duplicate. -/
theorem C9_counterexample :
    ((startGameClock [RaceGame.mk "g1" [] none true false]
        (startGameClock [RaceGame.mk "g1" [] none true false] [] "g1" 0)
        "g1" 1).filter
      (fun c => c.gameId == "g1" && !c.cleared)).length = 2 := by
  decide

/-- C9 amended: the source tracks no active race timers: whenever the game
is reachable, startGameClock unconditionally appends a fresh countdown
interval from 120 to the live timers, whatever timers — including one for
the same game identifier — are already active. -/
theorem C9_amended_no_duplicate_timer_guard (db : List RaceGame)
    (timers : List RaceClock) (gameId : String) (now : Int) (g : RaceGame)
    (hg : db.find? (fun x => x.id == gameId) = some g) :
    startGameClock db timers gameId now
      = timers ++ [⟨gameId, 120, { g with startTime := some now },
          [{ g with startTime := some now }], false⟩] := by
  unfold startGameClock
  rw [hg]
  rfl

/-- C9 witness: the amended statement at a concrete game, with a timer for
the same identifier already active. -/
theorem C9_amended_witness :
    ([RaceGame.mk "g1" [] none true false].find? (fun x => x.id == "g1")
      = some (RaceGame.mk "g1" [] none true false))
    ∧ startGameClock [RaceGame.mk "g1" [] none true false]
        [⟨"g1", 120, RaceGame.mk "g1" [] (some 0) true false,
          [RaceGame.mk "g1" [] (some 0) true false], false⟩] "g1" 1
      = [⟨"g1", 120, RaceGame.mk "g1" [] (some 0) true false,
          [RaceGame.mk "g1" [] (some 0) true false], false⟩]
        ++ [⟨"g1", 120, RaceGame.mk "g1" [] (some 1) true false,
          [RaceGame.mk "g1" [] (some 1) true false], false⟩] :=
  ⟨by decide, C9_amended_no_duplicate_timer_guard
      [RaceGame.mk "g1" [] none true false]
      [⟨"g1", 120, RaceGame.mk "g1" [] (some 0) true false,
        [RaceGame.mk "g1" [] (some 0) true false], false⟩]
      "g1" 1 (RaceGame.mk "g1" [] none true false) (by decide)⟩

theorem runLobby_add (m n : Nat) (st : LobbyState) :
    runLobby (m + n) st
      = ((runLobby n (runLobby m st).1).1,
         (runLobby m st).2 ++ (runLobby n (runLobby m st).1).2) := by
  induction m generalizing st with
  | zero => simp [runLobby]
  | succ k ih =>
      rw [Nat.succ_add]
      simp only [runLobby, ih]
      simp [List.append_assoc]

theorem runLobby_cleared (n : Nat) (st : LobbyState) (h : st.cleared = true) :
    runLobby n st = (st, []) := by
  induction n with
  | zero => rfl
  | succ k ih =>
      simp only [runLobby, lobbyStep, h]
      simpa using ih

theorem runRace_add (m n : Nat) (c : RaceClock) :
    runRace (m + n) c
      = ((runRace n (runRace m c).1).1,
         (runRace m c).2 ++ (runRace n (runRace m c).1).2) := by
  induction m generalizing c with
  | zero => simp [runRace]
  | succ k ih =>
      rw [Nat.succ_add]
      simp only [runRace, ih]
      simp [List.append_assoc]

theorem runRace_cleared (n : Nat) (c : RaceClock) (h : c.cleared = true) :
    runRace n c = (c, []) := by
  induction n with
  | zero => rfl
  | succ k ih =>
      simp only [runRace, raceStep, h]
      simpa using ih

theorem countTicks_succ (t : Nat) (msg : String) :
    countTicks (t + 1) msg
      = RaceEvent.timerEv ((t + 1 : Nat) : Int) msg :: countTicks t msg := by
  rw [countTicks, countTicks, List.range_succ, List.reverse_append]
  rfl

/-- One race tick: an uncleared interval with nonnegative remaining time
broadcasts the formatted time and decrements. -/
theorem raceStep_tick (c : RaceClock) (hc : c.cleared = false)
    (h0 : 0 ≤ c.time) :
    raceStep c = ({ c with time := c.time - 1 },
      [RaceEvent.timerEv (calculateTime c.time) "Time Remaining"]) := by
  unfold raceStep
  rw [if_neg (by simp [hc]), if_pos h0]

/-- The terminal race callback: an uncleared interval with negative
remaining time marks the game over, persists it, broadcasts the final
snapshot and clears itself. -/
theorem raceStep_done (c : RaceClock) (hc : c.cleared = false)
    (h0 : ¬0 ≤ c.time) :
    raceStep c
      = ({ c with
            game := { c.game with isOver := true },
            saved := c.saved ++ [{ c.game with isOver := true }],
            cleared := true },
          [RaceEvent.updateGame (some { c.game with isOver := true })]) := by
  unfold raceStep
  rw [if_neg (by simp [hc]), if_neg h0]

theorem runRace_zero (c : RaceClock) : runRace 0 c = (c, []) := rfl

theorem runRace_succ (n : Nat) (c : RaceClock) :
    runRace (n + 1) c
      = ((runRace n (raceStep c).1).1,
         (raceStep c).2 ++ (runRace n (raceStep c).1).2) := rfl

/-- Running a live race countdown interval with remaining time t to
completion: it ticks t, t-1, ..., 0, then marks the game over, persists
it, broadcasts the final snapshot and clears itself. -/
theorem runRace_run (t : Nat) (c : RaceClock) (ht : c.time = (t : Int))
    (hc : c.cleared = false) :
    runRace (t + 2) c
      = (⟨c.gameId, -1, { c.game with isOver := true },
          c.saved ++ [{ c.game with isOver := true }], true⟩,
         countTicks t "Time Remaining"
           ++ [RaceEvent.updateGame (some { c.game with isOver := true })]) := by
  induction t generalizing c with
  | zero =>
      have e1 := raceStep_tick c hc (by rw [ht]; omega)
      have e2 := raceStep_done ({ c with time := c.time - 1 }) hc
        (show ¬(0 : Int) ≤ c.time - 1 by rw [ht]; omega)
      show runRace (1 + 1) c = _
      rw [runRace_succ 1 c, e1]
      rw [runRace_succ 0 ({ c with time := c.time - 1 }), e2,
        runRace_zero]
      simp [countTicks, calculateTime, ht]
      rfl
  | succ k ih =>
      have h0 : (0 : Int) ≤ c.time := by rw [ht]; omega
      have e1 := raceStep_tick c hc h0
      show runRace ((k + 2) + 1) c = _
      rw [runRace_succ (k + 2) c, e1]
      have ht2 : (show RaceClock from { c with time := c.time - 1 }).time
          = (k : Int) := by
        show c.time - 1 = (k : Int)
        rw [ht]
        push_cast
        ring
      rw [ih _ ht2 hc]
      simp [countTicks_succ, calculateTime, ht]

/-- Running the lobby countdown interval to completion: six ticks carrying
5,4,3,2,1,0 each followed by a snapshot broadcast, then the terminal
callback closes the game, persists it, broadcasts the final snapshot,
starts the race countdown and clears the interval. -/
theorem runLobby_seven (gid : String) (g : RaceGame) :
    runLobby 7 (lobbyStart gid (some g))
      = (⟨-1, some { g with isOpen := false }, gid,
          [{ g with isOpen := false }], true, true⟩,
         [RaceEvent.timerEv 5 "Starting Game in...", RaceEvent.updateGame (some g),
          RaceEvent.timerEv 4 "Starting Game in...", RaceEvent.updateGame (some g),
          RaceEvent.timerEv 3 "Starting Game in...", RaceEvent.updateGame (some g),
          RaceEvent.timerEv 2 "Starting Game in...", RaceEvent.updateGame (some g),
          RaceEvent.timerEv 1 "Starting Game in...", RaceEvent.updateGame (some g),
          RaceEvent.timerEv 0 "Starting Game in...", RaceEvent.updateGame (some g),
          RaceEvent.updateGame (some { g with isOpen := false })]) := rfl

theorem countTicks_filter (t : Nat) (msg : String) :
    (countTicks t msg).filter RaceEvent.isTimerEv = countTicks t msg := by
  have h : List.filter
        (RaceEvent.isTimerEv ∘ fun k : Nat => RaceEvent.timerEv (k : Int) msg)
        ((List.range (t + 1)).reverse) = (List.range (t + 1)).reverse :=
    List.filter_eq_self.mpr (fun a _ => rfl)
  rw [countTicks, List.filter_map, h]

theorem countTicks_length (t : Nat) (msg : String) :
    (countTicks t msg).length = t + 1 := by
  rw [countTicks, List.length_map, List.length_reverse, List.length_range]

/-- C4: a lobby countdown started by a party leader broadcasts exactly 6
tick events carrying the counts 5,4,3,2,1,0, after which the game is
marked closed (isOpen false), persisted, a final snapshot is broadcast,
the race countdown is started and the interval is cleared — whatever fuel
of at least 7 callbacks the interval is given. -/
theorem C4_lobby_countdown_six_ticks_then_close (db : List RaceGame)
    (playerId gameId : String) (g : RaceGame) (pl : RacePlayer) (fuel : Nat)
    (hg : db.find? (fun x => x.id == gameId) = some g)
    (hp : g.players.find? (fun q => q.id == playerId) = some pl)
    (hl : pl.isPartyLeader = true) (hfuel : 7 ≤ fuel) :
    timerHandler db playerId gameId = ([], some (lobbyStart gameId (some g)))
    ∧ (runLobby fuel (lobbyStart gameId (some g))).2.filter RaceEvent.isTimerEv
        = countTicks 5 "Starting Game in..."
    ∧ (countTicks 5 "Starting Game in...").length = 6
    ∧ (runLobby fuel (lobbyStart gameId (some g))).1.game
        = some { g with isOpen := false }
    ∧ (runLobby fuel (lobbyStart gameId (some g))).1.saved
        = [{ g with isOpen := false }]
    ∧ (runLobby fuel (lobbyStart gameId (some g))).2.getLast?
        = some (RaceEvent.updateGame (some { g with isOpen := false }))
    ∧ (runLobby fuel (lobbyStart gameId (some g))).1.cleared = true
    ∧ (runLobby fuel (lobbyStart gameId (some g))).1.raceStarted = true := by
  obtain ⟨k, rfl⟩ := Nat.exists_eq_add_of_le hfuel
  have hrun : runLobby (7 + k) (lobbyStart gameId (some g))
      = ((⟨-1, some { g with isOpen := false }, gameId,
            [{ g with isOpen := false }], true, true⟩ : LobbyState),
         [RaceEvent.timerEv 5 "Starting Game in...", RaceEvent.updateGame (some g),
          RaceEvent.timerEv 4 "Starting Game in...", RaceEvent.updateGame (some g),
          RaceEvent.timerEv 3 "Starting Game in...", RaceEvent.updateGame (some g),
          RaceEvent.timerEv 2 "Starting Game in...", RaceEvent.updateGame (some g),
          RaceEvent.timerEv 1 "Starting Game in...", RaceEvent.updateGame (some g),
          RaceEvent.timerEv 0 "Starting Game in...", RaceEvent.updateGame (some g),
          RaceEvent.updateGame (some { g with isOpen := false })]) := by
    rw [runLobby_add 7 k, runLobby_seven]
    rw [runLobby_cleared k _ rfl]
    simp
  refine ⟨?_, ?_, rfl, ?_, ?_, ?_, ?_, ?_⟩
  · unfold timerHandler
    rw [hg]
    simp [hp, hl]
  · rw [hrun]
    rfl
  · rw [hrun]
  · rw [hrun]
  · rw [hrun]
    rfl
  · rw [hrun]
  · rw [hrun]

/-- C4 witness: the statement at a concrete game, leader and fuel 7. -/
theorem C4_witness :
    ([RaceGame.mk "g1" [⟨"p1", true⟩] none true false].find?
        (fun x => x.id == "g1")
      = some (RaceGame.mk "g1" [⟨"p1", true⟩] none true false))
    ∧ ((RaceGame.mk "g1" [⟨"p1", true⟩] none true false).players.find?
        (fun q => q.id == "p1") = some ⟨"p1", true⟩)
    ∧ (RacePlayer.mk "p1" true).isPartyLeader = true
    ∧ 7 ≤ 7
    ∧ (runLobby 7 (lobbyStart "g1"
          (some (RaceGame.mk "g1" [⟨"p1", true⟩] none true false)))).2.filter
        RaceEvent.isTimerEv = countTicks 5 "Starting Game in..." :=
  ⟨by decide, by decide, by decide, by decide,
    (C4_lobby_countdown_six_ticks_then_close
      [RaceGame.mk "g1" [⟨"p1", true⟩] none true false] "p1" "g1"
      (RaceGame.mk "g1" [⟨"p1", true⟩] none true false)
      (RacePlayer.mk "p1" true) 7
      (by decide) (by decide) (by decide) (by decide)).2.1⟩

/-- C5: a race countdown started for a reachable game broadcasts exactly
121 tick events carrying the counts 120 down to 0, after which the game is
marked finished (isOver true), persisted, a final snapshot is broadcast
and the interval is cleared — whatever fuel of at least 122 callbacks the
interval is given.  The start time is set and persisted before the first
tick. -/
theorem C5_race_countdown_121_ticks_then_over (db : List RaceGame)
    (timers : List RaceClock) (gameId : String) (now : Int) (g : RaceGame)
    (fuel : Nat)
    (hg : db.find? (fun x => x.id == gameId) = some g)
    (hfuel : 122 ≤ fuel) :
    startGameClock db timers gameId now
      = timers ++ [raceClockStart gameId { g with startTime := some now }]
    ∧ (raceClockStart gameId { g with startTime := some now }).time = 120
    ∧ (raceClockStart gameId { g with startTime := some now }).saved
        = [{ g with startTime := some now }]
    ∧ (runRace fuel (raceClockStart gameId
          { g with startTime := some now })).2.filter RaceEvent.isTimerEv
        = countTicks 120 "Time Remaining"
    ∧ (countTicks 120 "Time Remaining").length = 121
    ∧ (runRace fuel (raceClockStart gameId
          { g with startTime := some now })).1.game
        = { g with startTime := some now, isOver := true }
    ∧ (runRace fuel (raceClockStart gameId
          { g with startTime := some now })).1.saved
        = [{ g with startTime := some now },
           { g with startTime := some now, isOver := true }]
    ∧ (runRace fuel (raceClockStart gameId
          { g with startTime := some now })).2.getLast?
        = some (RaceEvent.updateGame
            (some { g with startTime := some now, isOver := true }))
    ∧ (runRace fuel (raceClockStart gameId
          { g with startTime := some now })).1.cleared = true := by
  obtain ⟨k, rfl⟩ := Nat.exists_eq_add_of_le hfuel
  have h120 : runRace 122 (raceClockStart gameId { g with startTime := some now })
      = ((⟨gameId, -1, { g with startTime := some now, isOver := true },
           [{ g with startTime := some now },
            { g with startTime := some now, isOver := true }], true⟩ : RaceClock),
         countTicks 120 "Time Remaining"
           ++ [RaceEvent.updateGame
                (some { g with startTime := some now, isOver := true })]) :=
    runRace_run 120 (raceClockStart gameId { g with startTime := some now })
      rfl rfl
  have hrun : runRace (122 + k)
        (raceClockStart gameId { g with startTime := some now })
      = ((⟨gameId, -1, { g with startTime := some now, isOver := true },
           [{ g with startTime := some now },
            { g with startTime := some now, isOver := true }], true⟩ : RaceClock),
         countTicks 120 "Time Remaining"
           ++ [RaceEvent.updateGame
                (some { g with startTime := some now, isOver := true })]) := by
    rw [runRace_add 122 k, h120]
    rw [runRace_cleared k _ rfl]
    simp
  refine ⟨?_, rfl, rfl, ?_, countTicks_length 120 _, ?_, ?_, ?_, ?_⟩
  · unfold startGameClock
    rw [hg]
  · rw [hrun]
    rw [List.filter_append, countTicks_filter]
    rfl
  · rw [hrun]
  · rw [hrun]
  · rw [hrun]
    simp
  · rw [hrun]

/-- C5 witness: the statement at a concrete game and fuel 122. -/
theorem C5_witness :
    ([RaceGame.mk "g1" [] none false false].find? (fun x => x.id == "g1")
      = some (RaceGame.mk "g1" [] none false false))
    ∧ 122 ≤ 122
    ∧ (runRace 122 (raceClockStart "g1"
          (RaceGame.mk "g1" [] (some 0) false false))).2.filter
        RaceEvent.isTimerEv = countTicks 120 "Time Remaining" :=
  ⟨by decide, by decide,
    (C5_race_countdown_121_ticks_then_over
      [RaceGame.mk "g1" [] none false false] [] "g1" 0
      (RaceGame.mk "g1" [] none false false) 122
      (by decide) (by decide)).2.2.2.1⟩

theorem winningTriples_shape : ∀ t ∈ winningTriples, t.length = 3 ∧ t.Nodup := by
  decide

theorem checkWin_isWin_iff (room : Room) (userId : String) :
    (CheckWin room userId).isWin = true ↔
      ∃ t ∈ winningTriples, ∀ c ∈ t,
        c ∈ (if room.user1.userId = some userId then room.user1.moves
             else room.user2.moves) := by
  unfold CheckWin
  simp [List.find?_isSome, List.all_eq_true]

theorem moveHandler_fst_match (room : Room) (p : MovePayload)
    (h : room.user1.userId = some p.userId) :
    (moveHandler room p).1
      = { room with user1 :=
            { room.user1 with moves := room.user1.moves ++ [p.move] } } := by
  unfold moveHandler
  dsimp only
  rw [if_pos h]
  split_ifs <;> rfl

theorem moveHandler_fst_nomatch (room : Room) (p : MovePayload)
    (h : ¬room.user1.userId = some p.userId) :
    (moveHandler room p).1
      = { room with user2 :=
            { room.user2 with moves := room.user2.moves ++ [p.move] } } := by
  unfold moveHandler
  dsimp only
  rw [if_neg h]
  split_ifs <;> rfl

theorem runGame_acc (ps : List MovePayload) (r : Room) (evs : List TicEvent) :
    ps.foldl (fun acc p =>
        let out := moveHandler acc.1 p
        (out.1, acc.2 ++ out.2)) (r, evs)
      = ((runGame r ps).1, evs ++ (runGame r ps).2) := by
  induction ps generalizing r evs with
  | nil => simp [runGame]
  | cons p ps ih =>
      simp only [runGame, List.foldl_cons]
      rw [ih, ih]
      simp

theorem runGame_cons (r : Room) (p : MovePayload) (ps : List MovePayload) :
    runGame r (p :: ps)
      = ((runGame (moveHandler r p).1 ps).1,
         (moveHandler r p).2 ++ (runGame (moveHandler r p).1 ps).2) := by
  simp only [runGame, List.foldl_cons]
  rw [runGame_acc]
  simp [runGame]

theorem runGame_append (r : Room) (ps qs : List MovePayload) :
    runGame r (ps ++ qs)
      = ((runGame (runGame r ps).1 qs).1,
         (runGame r ps).2 ++ (runGame (runGame r ps).1 qs).2) := by
  induction ps generalizing r with
  | nil => simp [runGame]
  | cons p ps ih =>
      rw [List.cons_append, runGame_cons, runGame_cons, ih]
      simp [runGame_cons, List.append_assoc]

theorem runGame_singleton (r : Room) (p : MovePayload) :
    runGame r [p] = ((moveHandler r p).1, (moveHandler r p).2) := by
  rw [runGame_cons]
  simp [runGame]

theorem moves1_cons_match (a : String) (p : MovePayload) (ps : List MovePayload)
    (h : p.userId = a) :
    moves1 a (p :: ps) = p.move :: moves1 a ps := by
  simp [moves1, h]

theorem moves1_cons_nomatch (a : String) (p : MovePayload)
    (ps : List MovePayload) (h : ¬p.userId = a) :
    moves1 a (p :: ps) = moves1 a ps := by
  simp [moves1, h]

theorem moves2_cons_match (a : String) (p : MovePayload) (ps : List MovePayload)
    (h : p.userId = a) :
    moves2 a (p :: ps) = moves2 a ps := by
  simp [moves2, h]

theorem moves2_cons_nomatch (a : String) (p : MovePayload)
    (ps : List MovePayload) (h : ¬p.userId = a) :
    moves2 a (p :: ps) = p.move :: moves2 a ps := by
  simp [moves2, h]

/-- The room reached after a list of move actions, characterized: every
payload whose user id matches the slot-one binding lands in slot one, in
order, and every other payload lands in slot two. -/
theorem runGame_fst_spec (ps : List MovePayload) :
    ∀ (r : Room) (a : String), r.user1.userId = some a →
    (runGame r ps).1
      = { user1 := { r.user1 with moves := r.user1.moves ++ moves1 a ps },
          user2 := { r.user2 with moves := r.user2.moves ++ moves2 a ps } } := by
  induction ps with
  | nil =>
      intro r a h
      simp [runGame, moves1, moves2]
  | cons p ps ih =>
      intro r a h
      rw [runGame_cons]
      by_cases hm : r.user1.userId = some p.userId
      · have hpa : p.userId = a := by
          rw [h] at hm
          exact (Option.some_inj.mp hm).symm
        dsimp only
        rw [moveHandler_fst_match r p hm]
        rw [ih ({ r with user1 :=
            { r.user1 with moves := r.user1.moves ++ [p.move] } }) a h]
        rw [moves1_cons_match a p ps hpa, moves2_cons_match a p ps hpa]
        simp [List.append_assoc]
      · have hpa : ¬p.userId = a := by
          intro he
          exact hm (by rw [h, he])
        dsimp only
        rw [moveHandler_fst_nomatch r p hm]
        rw [ih ({ r with user2 :=
            { r.user2 with moves := r.user2.moves ++ [p.move] } }) a h]
        rw [moves1_cons_nomatch a p ps hpa, moves2_cons_nomatch a p ps hpa]
        simp [List.append_assoc]

/-- When the board already holds 8 moves and the mover (bound to slot one)
already has at least 2, the next move triggers the win check, and failing
it the draw check: an end-of-game notice is emitted either way. -/
theorem stepEnd_match (room : Room) (p : MovePayload)
    (h : room.user1.userId = some p.userId)
    (h8 : room.user1.moves.length + room.user2.moves.length = 8)
    (hc : 2 ≤ room.user1.moves.length) :
    (moveHandler room p).2.any TicEvent.isEndEv = true := by
  unfold moveHandler
  dsimp only
  rw [if_pos h]
  rw [if_pos (show 3 ≤ (room.user1.moves ++ [p.move]).length by
    simp
    omega)]
  by_cases hw : (CheckWin { room with user1 :=
      { room.user1 with moves := room.user1.moves ++ [p.move] } }
      p.userId).isWin = true
  · rw [if_pos hw]
    simp [TicEvent.isEndEv, TicEvent.isWinEv]
  · rw [if_neg hw]
    rw [if_pos (show 9 ≤ ({ room with user1 :=
        { room.user1 with moves := room.user1.moves ++ [p.move] } }
          : Room).user1.moves.length
        + ({ room with user1 :=
        { room.user1 with moves := room.user1.moves ++ [p.move] } }
          : Room).user2.moves.length by
      simp
      omega)]
    simp [TicEvent.isEndEv, TicEvent.isDrawEv]

/-- The slot-two analogue of stepEnd_match. -/
theorem stepEnd_nomatch (room : Room) (p : MovePayload)
    (h : ¬room.user1.userId = some p.userId)
    (h8 : room.user1.moves.length + room.user2.moves.length = 8)
    (hc : 2 ≤ room.user2.moves.length) :
    (moveHandler room p).2.any TicEvent.isEndEv = true := by
  unfold moveHandler
  dsimp only
  rw [if_neg h]
  rw [if_pos (show 3 ≤ (room.user2.moves ++ [p.move]).length by
    simp
    omega)]
  by_cases hw : (CheckWin { room with user2 :=
      { room.user2 with moves := room.user2.moves ++ [p.move] } }
      p.userId).isWin = true
  · rw [if_pos hw]
    simp [TicEvent.isEndEv, TicEvent.isWinEv]
  · rw [if_neg hw]
    rw [if_pos (show 9 ≤ ({ room with user2 :=
        { room.user2 with moves := room.user2.moves ++ [p.move] } }
          : Room).user1.moves.length
        + ({ room with user2 :=
        { room.user2 with moves := room.user2.moves ++ [p.move] } }
          : Room).user2.moves.length by
      simp
      omega)]
    simp [TicEvent.isEndEv, TicEvent.isDrawEv]

/-- When the move of a slot-one-bound player completes a winning triple in
that slot, the handler emits the win notice. -/
theorem stepWin_match (room : Room) (p : MovePayload)
    (h : room.user1.userId = some p.userId)
    (hT : ∃ t ∈ winningTriples, ∀ c ∈ t, c ∈ room.user1.moves ++ [p.move]) :
    (moveHandler room p).2.any TicEvent.isEndEv = true := by
  have hwin : (CheckWin { room with user1 :=
      { room.user1 with moves := room.user1.moves ++ [p.move] } }
      p.userId).isWin = true := by
    rw [checkWin_isWin_iff]
    rw [if_pos (show ({ room with user1 :=
        { room.user1 with moves := room.user1.moves ++ [p.move] } }
          : Room).user1.userId = some p.userId from h)]
    exact hT
  have hlen : 3 ≤ (room.user1.moves ++ [p.move]).length := by
    obtain ⟨t, htm, hsub⟩ := hT
    obtain ⟨hl3, hnd⟩ := winningTriples_shape t htm
    have := (List.subperm_of_subset hnd (fun c hc => hsub c hc)).length_le
    omega
  unfold moveHandler
  dsimp only
  rw [if_pos h, if_pos hlen, if_pos hwin]
  simp [TicEvent.isEndEv, TicEvent.isWinEv]

/-- When the move of a player routed to slot two completes a winning
triple there, the handler emits the win notice. -/
theorem stepWin_nomatch (room : Room) (p : MovePayload)
    (h : ¬room.user1.userId = some p.userId)
    (hT : ∃ t ∈ winningTriples, ∀ c ∈ t, c ∈ room.user2.moves ++ [p.move]) :
    (moveHandler room p).2.any TicEvent.isEndEv = true := by
  have hwin : (CheckWin { room with user2 :=
      { room.user2 with moves := room.user2.moves ++ [p.move] } }
      p.userId).isWin = true := by
    rw [checkWin_isWin_iff]
    rw [if_neg (show ¬({ room with user2 :=
        { room.user2 with moves := room.user2.moves ++ [p.move] } }
          : Room).user1.userId = some p.userId from h)]
    exact hT
  have hlen : 3 ≤ (room.user2.moves ++ [p.move]).length := by
    obtain ⟨t, htm, hsub⟩ := hT
    obtain ⟨hl3, hnd⟩ := winningTriples_shape t htm
    have := (List.subperm_of_subset hnd (fun c hc => hsub c hc)).length_le
    omega
  unfold moveHandler
  dsimp only
  rw [if_neg h, if_pos hlen, if_pos hwin]
  simp [TicEvent.isEndEv, TicEvent.isWinEv]

/-- Pigeonhole over the three disjoint rows of the board: any 7 distinct
recorded indices among 0..8 contain a full winning triple. -/
theorem seven_moves_contain_triple (l : List Nat) (hn : l.Nodup)
    (hb : ∀ x ∈ l, x < 9) (hl : 7 ≤ l.length) :
    ∃ t ∈ winningTriples, ∀ c ∈ t, c ∈ l := by
  by_contra hcon
  push_neg at hcon
  obtain ⟨x0, hx0m, hx0⟩ := hcon [0, 1, 2] (by simp [winningTriples])
  obtain ⟨x1, hx1m, hx1⟩ := hcon [3, 4, 5] (by simp [winningTriples])
  obtain ⟨x2, hx2m, hx2⟩ := hcon [6, 7, 8] (by simp [winningTriples])
  have hb0 : x0 < 3 := by
    simp at hx0m
    rcases hx0m with rfl | rfl | rfl <;> omega
  have hb1 : 3 ≤ x1 ∧ x1 < 6 := by
    simp at hx1m
    rcases hx1m with rfl | rfl | rfl <;> omega
  have hb2 : 6 ≤ x2 ∧ x2 < 9 := by
    simp at hx2m
    rcases hx2m with rfl | rfl | rfl <;> omega
  have hFsub : l.toFinset ⊆ Finset.range 9 := by
    intro x hx
    exact Finset.mem_range.mpr (hb x (List.mem_toFinset.mp hx))
  have hFcard : l.toFinset.card = l.length := List.toFinset_card_of_nodup hn
  have hM : ({x0, x1, x2} : Finset Nat).card = 3 := by
    rw [Finset.card_eq_three]
    exact ⟨x0, x1, x2, by omega, by omega, by omega, rfl⟩
  have hMsub : ({x0, x1, x2} : Finset Nat) ⊆ Finset.range 9 := by
    intro x hx
    simp at hx
    rcases hx with rfl | rfl | rfl <;> exact Finset.mem_range.mpr (by omega)
  have hdisj : Disjoint l.toFinset ({x0, x1, x2} : Finset Nat) := by
    rw [Finset.disjoint_right]
    intro x hx hxl
    simp at hx
    rcases hx with rfl | rfl | rfl
    · exact hx0 (List.mem_toFinset.mp hxl)
    · exact hx1 (List.mem_toFinset.mp hxl)
    · exact hx2 (List.mem_toFinset.mp hxl)
  have hunion : (l.toFinset ∪ {x0, x1, x2}).card ≤ 9 := by
    have hsub := Finset.union_subset hFsub hMsub
    simpa using Finset.card_le_card hsub
  rw [Finset.card_union_of_disjoint hdisj, hFcard, hM] at hunion
  omega

theorem moves1_append (a : String) (l l2 : List MovePayload) :
    moves1 a (l ++ l2) = moves1 a l ++ moves1 a l2 := by
  simp [moves1]

theorem moves2_append (a : String) (l l2 : List MovePayload) :
    moves2 a (l ++ l2) = moves2 a l ++ moves2 a l2 := by
  simp [moves2]

theorem winningTriples_not_in_nil (hT : ∃ t ∈ winningTriples, ∀ c ∈ t, c ∈ ([] : List Nat)) :
    False := by
  obtain ⟨t, htm, hsub⟩ := hT
  obtain ⟨hl3, _⟩ := winningTriples_shape t htm
  cases t with
  | nil => simp at hl3
  | cons c cs => exact absurd (hsub c (by simp)) (by simp)

/-- If at some point the slot-two move sequence of a fresh two-bound room
contains a full winning triple, an end-of-game notice was emitted during
the run: the handler checks the mover for a win on every move once 3 moves
are in, so the move completing the triple triggered the win notice at the
latest. -/
theorem winEmitted_nomatch (a b ua ub : String) (ps : List MovePayload)
    (hT : ∃ t ∈ winningTriples, ∀ c ∈ t, c ∈ moves2 a ps) :
    (runGame (room0 a b ua ub) ps).2.any TicEvent.isEndEv = true := by
  induction ps using List.reverseRecOn with
  | nil => exact absurd hT (fun h => winningTriples_not_in_nil h)
  | append_singleton l p ih =>
      rw [runGame_append, List.any_append]
      by_cases hprev : ∃ t ∈ winningTriples, ∀ c ∈ t, c ∈ moves2 a l
      · rw [ih hprev]
        simp
      · by_cases hpa : p.userId = a
        · exfalso
          apply hprev
          have hmv : moves2 a (l ++ [p]) = moves2 a l := by
            rw [moves2_append, moves2_cons_match a p [] hpa]
            simp [moves2]
          exact hmv ▸ hT
        · have hmv : moves2 a (l ++ [p]) = moves2 a l ++ [p.move] := by
            rw [moves2_append, moves2_cons_nomatch a p [] hpa]
            simp [moves2]
          have hst := runGame_fst_spec l (room0 a b ua ub) a rfl
          have hnm : ¬(runGame (room0 a b ua ub) l).1.user1.userId
              = some p.userId := by
            rw [hst]
            intro he
            exact hpa (Option.some_inj.mp
              (show some a = some p.userId from he)).symm
          have hm2 : (runGame (room0 a b ua ub) l).1.user2.moves
              = moves2 a l := by
            rw [hst]
            simp [room0]
          have hT2 : ∃ t ∈ winningTriples, ∀ c ∈ t,
              c ∈ (runGame (room0 a b ua ub) l).1.user2.moves ++ [p.move] := by
            rw [hm2, ← hmv]
            exact hT
          have hwin := stepWin_nomatch _ p hnm hT2
          simp [runGame_singleton, hwin]

/-- The slot-one analogue of winEmitted_nomatch. -/
theorem winEmitted_match (a b ua ub : String) (ps : List MovePayload)
    (hT : ∃ t ∈ winningTriples, ∀ c ∈ t, c ∈ moves1 a ps) :
    (runGame (room0 a b ua ub) ps).2.any TicEvent.isEndEv = true := by
  induction ps using List.reverseRecOn with
  | nil => exact absurd hT (fun h => winningTriples_not_in_nil h)
  | append_singleton l p ih =>
      rw [runGame_append, List.any_append]
      by_cases hprev : ∃ t ∈ winningTriples, ∀ c ∈ t, c ∈ moves1 a l
      · rw [ih hprev]
        simp
      · by_cases hpa : p.userId = a
        · have hmv : moves1 a (l ++ [p]) = moves1 a l ++ [p.move] := by
            rw [moves1_append, moves1_cons_match a p [] hpa]
            simp [moves1]
          have hst := runGame_fst_spec l (room0 a b ua ub) a rfl
          have hm : (runGame (room0 a b ua ub) l).1.user1.userId
              = some p.userId := by
            rw [hst]
            show some a = some p.userId
            rw [hpa]
          have hm1 : (runGame (room0 a b ua ub) l).1.user1.moves
              = moves1 a l := by
            rw [hst]
            simp [room0]
          have hT2 : ∃ t ∈ winningTriples, ∀ c ∈ t,
              c ∈ (runGame (room0 a b ua ub) l).1.user1.moves ++ [p.move] := by
            rw [hm1, ← hmv]
            exact hT
          have hwin := stepWin_match _ p hm hT2
          simp [runGame_singleton, hwin]
        · exfalso
          apply hprev
          have hmv : moves1 a (l ++ [p]) = moves1 a l := by
            rw [moves1_append, moves1_cons_nomatch a p [] hpa]
            simp [moves1]
          exact hmv ▸ hT

theorem moves_length_split (a : String) (ps : List MovePayload) :
    (moves1 a ps).length + (moves2 a ps).length = ps.length := by
  induction ps with
  | nil => rfl
  | cons p ps ih =>
      by_cases hpa : p.userId = a
      · rw [moves1_cons_match a p ps hpa, moves2_cons_match a p ps hpa]
        simp only [List.length_cons]
        omega
      · rw [moves1_cons_nomatch a p ps hpa, moves2_cons_nomatch a p ps hpa]
        simp only [List.length_cons]
        omega

/-- A draw notice is only emitted by a move that brings the total recorded
move count to at least 9 and whose win check came back negative. -/
theorem drawOnly_step (room : Room) (p : MovePayload)
    (hd : (moveHandler room p).2.any TicEvent.isDrawEv = true) :
    9 ≤ (moveHandler room p).1.user1.moves.length
        + (moveHandler room p).1.user2.moves.length
    ∧ (CheckWin (moveHandler room p).1 p.userId).isWin = false := by
  unfold moveHandler at hd ⊢
  dsimp only at hd ⊢
  split_ifs at hd ⊢ <;>
    simp_all [TicEvent.isDrawEv]

/-- C2 counterexample: a valid sequence of 9 distinct move indices split
between the two bound players for which the run emits both a win notice
and a draw notice — A completes the triple 0,1,2 on the third move (win),
yet the ninth move still triggers the draw check, because B ends with the
line-free set 3,5,6,8 and the total reaches 9.  The claim that exactly one
of win or draw is signaled — never both — is false of the code. -/
theorem C2_counterexample :
    (([⟨"r", "A", 0⟩, ⟨"r", "A", 1⟩, ⟨"r", "A", 2⟩, ⟨"r", "A", 4⟩,
       ⟨"r", "A", 7⟩, ⟨"r", "B", 3⟩, ⟨"r", "B", 5⟩, ⟨"r", "B", 6⟩,
       ⟨"r", "B", 8⟩] : List MovePayload).map (fun p => p.move)).Perm
        (List.range 9)
    ∧ (∀ p ∈ ([⟨"r", "A", 0⟩, ⟨"r", "A", 1⟩, ⟨"r", "A", 2⟩, ⟨"r", "A", 4⟩,
       ⟨"r", "A", 7⟩, ⟨"r", "B", 3⟩, ⟨"r", "B", 5⟩, ⟨"r", "B", 6⟩,
       ⟨"r", "B", 8⟩] : List MovePayload), p.userId = "A" ∨ p.userId = "B")
    ∧ ((runGame (room0 "A" "B" "ua" "ub")
        [⟨"r", "A", 0⟩, ⟨"r", "A", 1⟩, ⟨"r", "A", 2⟩, ⟨"r", "A", 4⟩,
         ⟨"r", "A", 7⟩, ⟨"r", "B", 3⟩, ⟨"r", "B", 5⟩, ⟨"r", "B", 6⟩,
         ⟨"r", "B", 8⟩]).2.any TicEvent.isWinEv) = true
    ∧ ((runGame (room0 "A" "B" "ua" "ub")
        [⟨"r", "A", 0⟩, ⟨"r", "A", 1⟩, ⟨"r", "A", 2⟩, ⟨"r", "A", 4⟩,
         ⟨"r", "A", 7⟩, ⟨"r", "B", 3⟩, ⟨"r", "B", 5⟩, ⟨"r", "B", 6⟩,
         ⟨"r", "B", 8⟩]).2.any TicEvent.isDrawEv) = true := by
  decide

/-- C2 amended: for every sequence of 9 distinct move indices (a
permutation of 0..8) submitted by the two bound players of a fresh room,
at least one of a win notice or a draw notice is eventually emitted —
never neither — and a draw notice is emitted only by a move that brings
the total move count to 9 with a negative win check; a win notice and a
draw notice can however both occur in one game, since moves keep being
accepted after a win. -/
theorem C2_amended_end_notice_always_emitted :
    (∀ (a b ua ub : String) (seq : List MovePayload),
       (seq.map (fun p => p.move)).Perm (List.range 9) →
       (∀ p ∈ seq, p.userId = a ∨ p.userId = b) →
       (runGame (room0 a b ua ub) seq).2.any TicEvent.isEndEv = true)
    ∧ ∀ (room : Room) (p : MovePayload),
        (moveHandler room p).2.any TicEvent.isDrawEv = true →
        9 ≤ (moveHandler room p).1.user1.moves.length
            + (moveHandler room p).1.user2.moves.length
        ∧ (CheckWin (moveHandler room p).1 p.userId).isWin = false := by
  constructor
  · intro a b ua ub seq hperm _husers
    have hlen : seq.length = 9 := by
      have h := hperm.length_eq
      simpa using h
    rcases List.eq_nil_or_concat seq with rfl | ⟨ps, q, rfl⟩
    · simp at hlen
    rw [List.concat_eq_append] at hperm hlen ⊢
    have hlen8 : ps.length = 8 := by
      simp at hlen
      omega
    have hsplit := moves_length_split a ps
    have hnod9 : ((ps ++ [q]).map (fun p => p.move)).Nodup :=
      hperm.nodup_iff.mpr (List.nodup_range 9)
    have hnodps : (ps.map (fun p => p.move)).Nodup := by
      rw [List.map_append] at hnod9
      exact hnod9.of_append_left
    have hbps : ∀ x ∈ ps.map (fun p => p.move), x < 9 := by
      intro x hx
      have hx9 : x ∈ (ps ++ [q]).map (fun p => p.move) := by
        rw [List.map_append]
        exact List.mem_append_left _ hx
      have := hperm.mem_iff.mp hx9
      simpa using this
    have hstq := runGame_fst_spec ps (room0 a b ua ub) a rfl
    have hsub1 : List.Sublist (moves1 a ps) (ps.map (fun p => p.move)) :=
      (List.filter_sublist ps).map _
    have hsub2 : List.Sublist (moves2 a ps) (ps.map (fun p => p.move)) :=
      (List.filter_sublist ps).map _
    rw [runGame_append, List.any_append]
    by_cases hqa : q.userId = a
    · have hm : (runGame (room0 a b ua ub) ps).1.user1.userId
          = some q.userId := by
        rw [hstq]
        show some a = some q.userId
        rw [hqa]
      by_cases hc : 2 ≤ (moves1 a ps).length
      · have h8 : (runGame (room0 a b ua ub) ps).1.user1.moves.length
            + (runGame (room0 a b ua ub) ps).1.user2.moves.length = 8 := by
          rw [hstq]
          simp [room0]
          omega
        have hc2 : 2 ≤ (runGame (room0 a b ua ub) ps).1.user1.moves.length := by
          rw [hstq]
          simpa [room0] using hc
        have hend := stepEnd_match _ q hm h8 hc2
        simp [runGame_singleton, hend]
      · have h7 : 7 ≤ (moves2 a ps).length := by omega
        have hT := seven_moves_contain_triple (moves2 a ps)
          (hsub2.nodup hnodps)
          (fun x hx => hbps x (hsub2.subset hx)) h7
        rw [winEmitted_nomatch a b ua ub ps hT]
        simp
    · have hnm : ¬(runGame (room0 a b ua ub) ps).1.user1.userId
          = some q.userId := by
        rw [hstq]
        intro he
        exact hqa (Option.some_inj.mp
          (show some a = some q.userId from he)).symm
      by_cases hc : 2 ≤ (moves2 a ps).length
      · have h8 : (runGame (room0 a b ua ub) ps).1.user1.moves.length
            + (runGame (room0 a b ua ub) ps).1.user2.moves.length = 8 := by
          rw [hstq]
          simp [room0]
          omega
        have hc2 : 2 ≤ (runGame (room0 a b ua ub) ps).1.user2.moves.length := by
          rw [hstq]
          simpa [room0] using hc
        have hend := stepEnd_nomatch _ q hnm h8 hc2
        simp [runGame_singleton, hend]
      · have h7 : 7 ≤ (moves1 a ps).length := by omega
        have hT := seven_moves_contain_triple (moves1 a ps)
          (hsub1.nodup hnodps)
          (fun x hx => hbps x (hsub1.subset hx)) h7
        rw [winEmitted_match a b ua ub ps hT]
        simp
  · exact drawOnly_step

/-- C2 witness: the amended statement at a concrete full game (player A
playing all nine cells, winning on the third move) and at a concrete
draw-triggering ninth move. -/
theorem C2_amended_witness :
    (([⟨"r", "A", 0⟩, ⟨"r", "A", 1⟩, ⟨"r", "A", 2⟩, ⟨"r", "A", 3⟩,
       ⟨"r", "A", 4⟩, ⟨"r", "A", 5⟩, ⟨"r", "A", 6⟩, ⟨"r", "A", 7⟩,
       ⟨"r", "A", 8⟩] : List MovePayload).map (fun p => p.move)).Perm
        (List.range 9)
    ∧ (∀ p ∈ ([⟨"r", "A", 0⟩, ⟨"r", "A", 1⟩, ⟨"r", "A", 2⟩, ⟨"r", "A", 3⟩,
       ⟨"r", "A", 4⟩, ⟨"r", "A", 5⟩, ⟨"r", "A", 6⟩, ⟨"r", "A", 7⟩,
       ⟨"r", "A", 8⟩] : List MovePayload), p.userId = "A" ∨ p.userId = "B")
    ∧ ((runGame (room0 "A" "B" "ua" "ub")
        [⟨"r", "A", 0⟩, ⟨"r", "A", 1⟩, ⟨"r", "A", 2⟩, ⟨"r", "A", 3⟩,
         ⟨"r", "A", 4⟩, ⟨"r", "A", 5⟩, ⟨"r", "A", 6⟩, ⟨"r", "A", 7⟩,
         ⟨"r", "A", 8⟩]).2.any TicEvent.isEndEv) = true
    ∧ ((moveHandler (Room.mk ⟨some "A", "ua", [0, 1, 5, 6]⟩
          ⟨some "B", "ub", [2, 3, 4, 8]⟩) ⟨"r", "B", 7⟩).2.any
        TicEvent.isDrawEv) = true
    ∧ 9 ≤ (moveHandler (Room.mk ⟨some "A", "ua", [0, 1, 5, 6]⟩
          ⟨some "B", "ub", [2, 3, 4, 8]⟩) ⟨"r", "B", 7⟩).1.user1.moves.length
        + (moveHandler (Room.mk ⟨some "A", "ua", [0, 1, 5, 6]⟩
          ⟨some "B", "ub", [2, 3, 4, 8]⟩) ⟨"r", "B", 7⟩).1.user2.moves.length
    ∧ (CheckWin (moveHandler (Room.mk ⟨some "A", "ua", [0, 1, 5, 6]⟩
          ⟨some "B", "ub", [2, 3, 4, 8]⟩) ⟨"r", "B", 7⟩).1 "B").isWin
        = false :=
  ⟨by decide, by decide,
    C2_amended_end_notice_always_emitted.1 "A" "B" "ua" "ub"
      [⟨"r", "A", 0⟩, ⟨"r", "A", 1⟩, ⟨"r", "A", 2⟩, ⟨"r", "A", 3⟩,
       ⟨"r", "A", 4⟩, ⟨"r", "A", 5⟩, ⟨"r", "A", 6⟩, ⟨"r", "A", 7⟩,
       ⟨"r", "A", 8⟩] (by decide) (by decide),
    by decide,
    (C2_amended_end_notice_always_emitted.2
      (Room.mk ⟨some "A", "ua", [0, 1, 5, 6]⟩ ⟨some "B", "ub", [2, 3, 4, 8]⟩)
      ⟨"r", "B", 7⟩ (by decide)).1,
    (C2_amended_end_notice_always_emitted.2
      (Room.mk ⟨some "A", "ua", [0, 1, 5, 6]⟩ ⟨some "B", "ub", [2, 3, 4, 8]⟩)
      ⟨"r", "B", 7⟩ (by decide)).2⟩
